import Mathlib

/-!
Verification of the font-asset synchronization pipeline of
`scripts/download_fonts.py`.

The script iterates a fixed list of font identifiers; for each it fetches
metadata (one JSON document with a `variants` array) from a remote endpoint,
filters the variants to the supported id set `("regular", "600", "700")`,
normalizes the variant id to a weight string, computes the target filename
`{font_id}-{weight}.woff2`, skips the download when the target file exists
with size strictly greater than 1000 bytes, and otherwise fetches the asset
bytes and writes them to the target path.  All network and parse failures
are caught per font (metadata) or per variant (asset download) and turned
into printed failure lines; the loop always continues.

The embedding below represents the two network endpoints as an oracle
(`Backend`): `resolve` models `urlopen` + `json.loads` of the metadata
request (any exception becomes `Except.error`), and `fetch` models
`urlopen` + `read` of the asset request.  The filesystem is a partial map
from paths to byte lists; `os.path.exists`/`os.path.getsize` are read off
that map.  The per-item printed lines (`exists:`, `downloading ... ✓`,
`FAIL`) are modelled as report entries.
-/

set_option maxRecDepth 8000

namespace FontSync

/-- A font asset body: the raw bytes, as a list of byte values. -/
abbrev Bytes := List Nat

/-- The filesystem visible to the script: a map from path to file contents;
`none` means the path does not exist. -/
abbrev FS := String → Option Bytes

/-- The empty cache directory: no file exists. -/
def fsEmpty : FS := fun _ => none

/-- Writing a file: `open(out, 'wb')` followed by a complete
`f.write(bytes)` replaces the contents at `out`. -/
def fsWrite (fs : FS) (p : String) (b : Bytes) : FS :=
  fun q => if q = p then some b else fs q

/-- An in-place write (`open(out, 'wb'); f.write(b)`) interrupted after the
first `k` bytes have reached the disk: `open` with mode `'wb'` truncates the
file at once, so the path is left holding exactly the written prefix
`b.take k` (the complete write is the case `b.length ≤ k`). -/
def storeInterrupted (fs : FS) (p : String) (b : Bytes) (k : Nat) : FS :=
  fsWrite fs p (b.take k)

/-- One entry of the metadata response's `variants` array.  The script
reads the fields with `variant.get('id', '')` and `variant.get('woff2', '')`,
so each field may be absent. -/
structure Variant where
  id : Option String
  woff2 : Option String
deriving DecidableEq, Repr

/-- The parsed metadata JSON document.  The script reads
`data.get('variants', [])`, so the `variants` field may be absent. -/
structure FontData where
  variants : Option (List Variant)
deriving DecidableEq, Repr

/-- The two remote endpoints, as an oracle.  `resolve` is the metadata
request plus `json.loads` (`urllib.request.urlopen(req, timeout=15)`): any
exception — timeout, network error, non-2xx status, unparseable body —
is the `Except.error` case, carrying the printed message.  `fetch` is the
asset request (`urlopen(req2, timeout=15)` + `response.read()`).  This
oracle types every parsed body as a `variants`-shaped object and every
fetch failure as state-free, which covers runs over well-shaped metadata
whose downloads fail at the connect phase; `BackendJ` below refines both
points, modelling arbitrary JSON shapes (which lines 39-41 of the code
do not guard) and the phases of the download/write. -/
structure Backend where
  resolve : String → Except String FontData
  fetch : String → Except String Bytes

/-- One line of the script's per-item output, i.e. one report entry. -/
inductive Entry where
  | resolveFail (fontId msg : String)
  | present (fontId filename : String)
  | downloaded (fontId filename : String) (size : Nat)
  | downloadFail (fontId filename msg : String)
deriving DecidableEq, Repr

/-- The supported variant ids: `('regular', '600', '700')` in
`if variant_id not in ('regular', '600', '700'): continue`. -/
def supportedIds : List String := ["regular", "600", "700"]

/-- `weight = '400' if variant_id == 'regular' else variant_id`. -/
def weightOf (variantId : String) : String :=
  if variantId = "regular" then "400" else variantId

/-- `filename = f'{font_id}-{weight}.woff2'`. -/
def filenameOf (fontId weight : String) : String :=
  fontId ++ "-" ++ weight ++ ".woff2"

/-- `out = os.path.join(base, filename)` for a non-empty relative
`filename`: the directory, a separator, the filename. -/
def pathJoin (a b : String) : String := a ++ "/" ++ b

/-- The cache validity test guarding the download:
`os.path.exists(out) and os.path.getsize(out) > 1000`.  `true` means the
script prints `exists:` and skips; `false` means the asset is (re)fetched.
This is the complement of the spec's `needsFetch`. -/
def skipCached (fs : FS) (p : String) : Bool :=
  match fs p with
  | some b => decide (1000 < b.length)
  | none => false

/-- The body of the inner `for variant in data.get('variants', [])` loop
for one variant: filter by supported id, filter empty `woff2` url,
normalize the weight, build the path, consult the cache, and otherwise
fetch and write, catching any fetch error.  Returns the report entries it
prints and the filesystem after it. -/
def processVariant (base fontId : String) (be : Backend) (v : Variant)
    (fs : FS) : List Entry × FS :=
  let vid := v.id.getD ""
  let url := v.woff2.getD ""
  if vid ∈ supportedIds then
    if url = "" then ([], fs)
    else
      let filename := filenameOf fontId (weightOf vid)
      let out := pathJoin base filename
      if skipCached fs out then ([Entry.present fontId filename], fs)
      else
        match be.fetch url with
        | Except.ok b => ([Entry.downloaded fontId filename b.length], fsWrite fs out b)
        | Except.error e => ([Entry.downloadFail fontId filename e], fs)
  else ([], fs)

/-- The inner loop over the `variants` array, threading the filesystem. -/
def processVariants (base fontId : String) (be : Backend) :
    List Variant → FS → List Entry × FS
  | [], fs => ([], fs)
  | v :: vs, fs =>
    let r := processVariant base fontId be v fs
    let rest := processVariants base fontId be vs r.2
    (r.1 ++ rest.1, rest.2)

/-- The body of the outer `for font_id in FONT_IDS` loop for one font:
fetch the metadata; on any exception print `FAIL to fetch metadata` and
`continue`; otherwise run the inner loop over `data.get('variants', [])`. -/
def processFont (base : String) (be : Backend) (fontId : String) (fs : FS) :
    List Entry × FS :=
  match be.resolve fontId with
  | Except.error e => ([Entry.resolveFail fontId e], fs)
  | Except.ok data => processVariants base fontId be (data.variants.getD []) fs

/-- The whole driver loop over the font identifier list. -/
def run (base : String) (be : Backend) : List String → FS → List Entry × FS
  | [], fs => ([], fs)
  | f :: fonts, fs =>
    let r := processFont base be f fs
    let rest := run base be fonts r.2
    (r.1 ++ rest.1, rest.2)

/-- Whether a report entry is a successful download. -/
def Entry.isDownload : Entry → Bool
  | .downloaded .. => true
  | _ => false

/-- Whether a report entry records a failure. -/
def Entry.isFailure : Entry → Bool
  | .resolveFail .. => true
  | .downloadFail .. => true
  | _ => false

/-- Number of downloads performed in a report. -/
def countDownloads (es : List Entry) : Nat :=
  (es.filter Entry.isDownload).length

/-- Whether any item failed during a run. -/
def anyFailed (es : List Entry) : Bool := es.any Entry.isFailure

/-- A JSON value as produced by `json.loads`: the shapes the script's
lines 39-41 dynamically distinguish (dict / list / str / number / bool /
null). -/
inductive JsonVal where
  | jdict (fields : List (String × JsonVal))
  | jlist (items : List JsonVal)
  | jstr (s : String)
  | jnum (n : Int)
  | jbool (b : Bool)
  | jnull

/-- Whether a JSON value is a dict — the only shape with a `.get`
method; `.get` on any other shape raises an uncaught AttributeError. -/
def JsonVal.isDict : JsonVal → Bool
  | .jdict _ => true
  | _ => false

/-- Python truthiness of a JSON-decoded value, for `if not woff2_url`. -/
def JsonVal.falsy : JsonVal → Bool
  | .jstr s => s == ""
  | .jnum n => n == 0
  | .jbool b => !b
  | .jnull => true
  | .jlist items => items.isEmpty
  | .jdict fields => fields.isEmpty

/-- What `for variant in x` iterates over: a list yields its items, a
string yields its characters as one-character strings, a dict yields its
keys; a number, bool or null is not iterable (`none` = the uncaught
TypeError at line 39). -/
def iterItems : JsonVal → Option (List JsonVal)
  | .jlist items => some items
  | .jstr s => some (s.data.map fun c => JsonVal.jstr (String.mk [c]))
  | .jdict fields => some (fields.map fun kv => JsonVal.jstr kv.1)
  | _ => none

/-- The outcome of step 7's try block for one asset URL, splitting the
phases of `with urlopen(req2) as response, open(out, 'wb') as f:
f.write(response.read())`:
`connectError` = `urlopen` raises, the target file is untouched;
`readError` = `response.read()` raises after `open(out, 'wb')` has
already truncated/created the target, leaving a 0-byte file;
`writeError` = a local IO error from `open`/`write`/`close` after
`written` bytes of the body reached disk;
`success` = the whole body is fetched and written. -/
inductive ItemOutcome where
  | connectError (msg : String)
  | readError (msg : String)
  | writeError (msg : String) (written : Bytes)
  | success (body : Bytes)

/-- The remote endpoints at full JSON granularity, refining `Backend`:
`resolve` is the metadata try block (request, urlopen, `json.loads`) —
`Except.error` for any exception caught there, `Except.ok` carrying the
parsed JSON value of whatever shape; `fetch` gives step 7's outcome for
an asset URL, local write errors included. -/
structure BackendJ where
  resolve : String → Except String JsonVal
  fetch : String → ItemOutcome

/-- `o` is one of the three per-item failure outcomes of step 7, with
printed message `e`: a connect failure, a mid-body read failure, or a
local write failure. -/
def fetchFailsWith (o : ItemOutcome) (e : String) : Prop :=
  o = ItemOutcome.connectError e ∨ o = ItemOutcome.readError e ∨
    ∃ w, o = ItemOutcome.writeError e w

/-- Prepend already-printed entries to a later outcome, preserving
whether that outcome completed (`ok`) or crashed (`error`). -/
def prependReport (es : List Entry) :
    Except (List Entry × FS) (List Entry × FS) →
    Except (List Entry × FS) (List Entry × FS)
  | Except.ok r => Except.ok (es ++ r.1, r.2)
  | Except.error r => Except.error (es ++ r.1, r.2)

/-- Lines 40-63 for one element yielded by the `variants` iteration, at
full JSON granularity.  `Except.error` is an uncaught exception (the
process dies with the report and filesystem as they stand): a non-dict
element crashes at `variant.get('id', '')`.  A non-string id never
equals `'regular'`/`'600'`/`'700'`, so it is filtered; a falsy woff2
value is filtered; a truthy non-string woff2 makes
`urllib.request.Request(woff2_url, ...)` raise inside the try, a caught
per-item failure (its exception text modelled as `"invalid url"`).  A
mid-body read failure leaves a 0-byte file, a local write failure leaves
the written prefix (see `ItemOutcome`). -/
def processVariantJ (base fontId : String) (be : BackendJ) (v : JsonVal)
    (fs : FS) : Except (List Entry × FS) (List Entry × FS) :=
  match v with
  | .jdict fields =>
    let vid := (fields.lookup "id").getD (JsonVal.jstr "")
    let url := (fields.lookup "woff2").getD (JsonVal.jstr "")
    match vid with
    | .jstr s =>
      if s ∈ supportedIds then
        if url.falsy then Except.ok ([], fs)
        else
          let filename := filenameOf fontId (weightOf s)
          let out := pathJoin base filename
          if skipCached fs out then
            Except.ok ([Entry.present fontId filename], fs)
          else
            match url with
            | .jstr u =>
              match be.fetch u with
              | .success b =>
                Except.ok ([Entry.downloaded fontId filename b.length],
                  fsWrite fs out b)
              | .connectError e =>
                Except.ok ([Entry.downloadFail fontId filename e], fs)
              | .readError e =>
                Except.ok ([Entry.downloadFail fontId filename e],
                  fsWrite fs out [])
              | .writeError e w =>
                Except.ok ([Entry.downloadFail fontId filename e],
                  fsWrite fs out w)
            | _ =>
              Except.ok ([Entry.downloadFail fontId filename "invalid url"], fs)
      else Except.ok ([], fs)
    | _ => Except.ok ([], fs)
  | _ => Except.error ([], fs)

/-- The inner loop over whatever `variants` iterates to, stopping at the
first uncaught exception. -/
def processVariantsJ (base fontId : String) (be : BackendJ) :
    List JsonVal → FS → Except (List Entry × FS) (List Entry × FS)
  | [], fs => Except.ok ([], fs)
  | v :: vs, fs =>
    match processVariantJ base fontId be v fs with
    | Except.error r => Except.error r
    | Except.ok r => prependReport r.1 (processVariantsJ base fontId be vs r.2)

/-- Lines 28-41 for one font, at full JSON granularity.  A caught
metadata exception is one failure entry.  A parsed body that is not a
dict crashes uncaught at `data.get('variants', [])` (line 39, outside
the try); a `variants` value that is not iterable crashes uncaught at
the `for`; otherwise the inner loop runs over what it yields. -/
def processFontJ (base : String) (be : BackendJ) (fontId : String)
    (fs : FS) : Except (List Entry × FS) (List Entry × FS) :=
  match be.resolve fontId with
  | Except.error e => Except.ok ([Entry.resolveFail fontId e], fs)
  | Except.ok data =>
    match data with
    | .jdict fields =>
      match iterItems ((fields.lookup "variants").getD (JsonVal.jlist [])) with
      | some items => processVariantsJ base fontId be items fs
      | none => Except.error ([], fs)
    | _ => Except.error ([], fs)

/-- The whole driver loop at full JSON granularity: `ok` means the loop
completed and `print('\nDone.')` ran; `error` means an uncaught
exception killed the process mid-run, with the entries printed and the
files written up to that point. -/
def runJ (base : String) (be : BackendJ) :
    List String → FS → Except (List Entry × FS) (List Entry × FS)
  | [], fs => Except.ok ([], fs)
  | f :: fonts, fs =>
    match processFontJ base be f fs with
    | Except.error r => Except.error r
    | Except.ok r => prependReport r.1 (runJ base be fonts r.2)

/-- The entries printed by a run, completed or crashed. -/
def runReport (base : String) (be : BackendJ) (fonts : List String)
    (fs : FS) : List Entry :=
  match runJ base be fonts fs with
  | Except.ok r => r.1
  | Except.error r => r.1

/-- The process exit status, derived from the run: the script calls no
`sys.exit`, so a completed loop ends the module normally (status 0,
whatever the report holds), while an uncaught exception kills the
interpreter with a traceback (status 1). -/
def scriptExitCodeJ (base : String) (be : BackendJ) (fonts : List String)
    (fs : FS) : Nat :=
  match runJ base be fonts fs with
  | Except.ok _ => 0
  | Except.error _ => 1

/-- A parsed metadata document of the shape the code handles without
crashing: a dict whose `variants` member, when present, is a list of
dicts. -/
def wellShapedData : JsonVal → Bool
  | .jdict fields =>
    match fields.lookup "variants" with
    | none => true
    | some (.jlist items) => items.all JsonVal.isDict
    | some _ => false
  | _ => false

/-- Every metadata document the backend successfully parses is
well-shaped. -/
def wellShapedBE (be : BackendJ) : Prop :=
  ∀ f d, be.resolve f = Except.ok d → wellShapedData d = true

/-- A concrete file body of `n` zero bytes. -/
def zeros (n : Nat) : Bytes := List.replicate n 0

/-- Target path of font `demo`, weight 400, under cache directory `fonts`. -/
def c1Path : String := pathJoin "fonts" (filenameOf "demo" "400")

/-- A cache holding one file of size exactly 1000 bytes — exactly the
threshold — at the weight-400 target path of font `demo`. -/
def c1FS : FS :=
  fun p => if p = c1Path then some (zeros 1000) else none

/-- A backend whose asset endpoint serves a 1001-byte body. -/
def c1BE : Backend :=
  { resolve := fun _ => Except.error "unused"
    fetch := fun _ => Except.ok (zeros 1001) }

/-- A backend whose endpoints always fail. -/
def c7BE : Backend :=
  { resolve := fun _ => Except.error "timed out"
    fetch := fun _ => Except.error "timed out" }

/-- A stable backend serving one `regular` variant whose asset body is a
genuine font file: 1001 bytes, above the validity threshold. -/
def c2BE : Backend :=
  { resolve := fun _ => Except.ok ⟨some [⟨some "regular", some "u"⟩]⟩
    fetch := fun _ => Except.ok (zeros 1001) }

/-- A stable backend serving one `regular` variant whose asset body is
only 500 bytes — below the validity threshold. -/
def c2SmallBE : Backend :=
  { resolve := fun _ => Except.ok ⟨some [⟨some "regular", some "u"⟩]⟩
    fetch := fun _ => Except.ok (zeros 500) }

/-- Every asset body the backend successfully serves is larger than the
1000-byte cache validity threshold (true of any real woff2 font file). -/
def servesLargeAssets (be : Backend) : Prop :=
  ∀ url b, be.fetch url = Except.ok b → 1000 < b.length

/-- One variant needs no further download from state `fs`: if it passes
the id and url filters, then either its target file is already valid, or
its asset fetch fails. -/
def VariantSettled (base fontId : String) (be : Backend) (fs : FS)
    (v : Variant) : Prop :=
  v.id.getD "" ∈ supportedIds → v.woff2.getD "" ≠ "" →
    skipCached fs
        (pathJoin base (filenameOf fontId (weightOf (v.id.getD "")))) = true ∨
    ∃ e, be.fetch (v.woff2.getD "") = Except.error e

/-- One font needs no further download from state `fs`: every variant its
metadata resolves to is settled. -/
def FontSettled (base : String) (be : Backend) (fontId : String)
    (fs : FS) : Prop :=
  ∀ data, be.resolve fontId = Except.ok data →
    ∀ v ∈ data.variants.getD [], VariantSettled base fontId be fs v

/-- A whole font list needs no further download from state `fs`. -/
def Settled (base : String) (be : Backend) (fonts : List String)
    (fs : FS) : Prop :=
  ∀ f ∈ fonts, FontSettled base be f fs

/-- A backend whose asset endpoint always fails mid-body: the connection
opens, then the read times out after the target was truncated. -/
def c5BE : BackendJ :=
  { resolve := fun _ => Except.error "unused"
    fetch := fun _ => ItemOutcome.readError "read timed out" }

/-- A backend whose metadata endpoint returns HTTP 200 with the valid
JSON body `null` — parsed fine by `json.loads`, but not an object. -/
def c6BE : BackendJ :=
  { resolve := fun _ => Except.ok JsonVal.jnull
    fetch := fun _ => ItemOutcome.connectError "unused" }

/-- A backend serving one well-shaped metadata document with a single
`regular` variant, and a 1001-byte asset body. -/
def c6GoodBE : BackendJ :=
  { resolve := fun _ => Except.ok (JsonVal.jdict
      [("variants", JsonVal.jlist
        [JsonVal.jdict [("id", JsonVal.jstr "regular"),
          ("woff2", JsonVal.jstr "u")]])])
    fetch := fun _ => ItemOutcome.success (zeros 1001) }

/-- A backend whose endpoints always fail with caught errors: metadata
requests time out (a per-font failure), asset connects time out. -/
def c7BEJ : BackendJ :=
  { resolve := fun _ => Except.error "timed out"
    fetch := fun _ => ItemOutcome.connectError "timed out" }

/-- C3: for variant id "regular" the filename weight segment is "400";
variant ids "600" and "700" pass through unchanged; the filename is
`{fontIdentifier}-{weight}.woff2`. -/
theorem C3_normalization :
    weightOf "regular" = "400" ∧ weightOf "600" = "600" ∧
    weightOf "700" = "700" ∧
    ∀ fontId vid : String,
      filenameOf fontId (weightOf vid) =
        fontId ++ "-" ++ weightOf vid ++ ".woff2" := by
  refine ⟨by decide, by decide, by decide, fun fontId vid => rfl⟩

/-- Size of a concrete zero-byte body. -/
theorem zeros_length (n : Nat) : (zeros n).length = n := by
  unfold zeros
  rw [List.length_replicate]

/-- Truncating a concrete zero-byte body. -/
theorem zeros_take (n k : Nat) : (zeros n).take k = zeros (min k n) := by
  unfold zeros
  rw [List.take_replicate]

/-- Helper: a variants list in which every entry's id falls outside the
supported set is processed without any entry or filesystem change. -/
theorem processVariants_all_filtered (base fontId : String) (be : Backend)
    (vs : List Variant) (fs : FS)
    (h : ∀ v ∈ vs, v.id.getD "" ∉ supportedIds) :
    processVariants base fontId be vs fs = ([], fs) := by
  induction vs with
  | nil => rfl
  | cons v vs ih =>
    have hv := h v (List.mem_cons_self v vs)
    have hrest : ∀ w ∈ vs, w.id.getD "" ∉ supportedIds :=
      fun w hw => h w (List.mem_cons_of_mem v hw)
    simp [processVariants, processVariant, hv, ih hrest]

/-- Helper: the filesystem after one variant step is either unchanged or
has one path overwritten with a successfully fetched body. -/
theorem processVariant_state (base fontId : String) (be : Backend)
    (v : Variant) (fs : FS) :
    (processVariant base fontId be v fs).2 = fs ∨
    ∃ out b, be.fetch (v.woff2.getD "") = Except.ok b ∧
      (processVariant base fontId be v fs).2 = fsWrite fs out b := by
  unfold processVariant
  by_cases hmem : v.id.getD "" ∈ supportedIds
  · by_cases hurl : v.woff2.getD "" = ""
    · simp [hmem, hurl]
    · by_cases hskip : skipCached fs
          (pathJoin base (filenameOf fontId (weightOf (v.id.getD "")))) = true
      · simp [hmem, hurl, hskip]
      · cases hf : be.fetch (v.woff2.getD "") with
        | ok b =>
          right
          refine ⟨pathJoin base (filenameOf fontId (weightOf (v.id.getD ""))),
            b, rfl, ?_⟩
          simp [hmem, hurl, hskip, hf]
        | error e =>
          left
          simp [hmem, hurl, hskip, hf]
  · simp [hmem]

/-- Helper: overwriting any path with a body above the threshold keeps
every already-valid path valid. -/
theorem skipCached_fsWrite_large (fs : FS) (p out : String) (b : Bytes)
    (hb : 1000 < b.length) (hp : skipCached fs p = true) :
    skipCached (fsWrite fs out b) p = true := by
  by_cases h : p = out
  · subst h
    simp [skipCached, fsWrite, hb]
  · simp only [skipCached, fsWrite, if_neg h] at hp ⊢
    exact hp

/-- Helper: under a backend whose assets all beat the threshold, one
variant step preserves cache validity of every path. -/
theorem skipCached_processVariant (base fontId : String) (be : Backend)
    (v : Variant) (fs : FS) (p : String) (H : servesLargeAssets be)
    (hp : skipCached fs p = true) :
    skipCached (processVariant base fontId be v fs).2 p = true := by
  rcases processVariant_state base fontId be v fs with h | ⟨out, b, hf, h⟩
  · rw [h]; exact hp
  · rw [h]; exact skipCached_fsWrite_large fs p out b (H _ b hf) hp

/-- Helper: the inner variant loop preserves cache validity. -/
theorem skipCached_processVariants (base fontId : String) (be : Backend)
    (vs : List Variant) (fs : FS) (p : String) (H : servesLargeAssets be)
    (hp : skipCached fs p = true) :
    skipCached (processVariants base fontId be vs fs).2 p = true := by
  induction vs generalizing fs with
  | nil => exact hp
  | cons v vs ih =>
    simp only [processVariants]
    exact ih _ (skipCached_processVariant base fontId be v fs p H hp)

/-- Helper: processing one font preserves cache validity. -/
theorem skipCached_processFont (base : String) (be : Backend)
    (fontId : String) (fs : FS) (p : String) (H : servesLargeAssets be)
    (hp : skipCached fs p = true) :
    skipCached (processFont base be fontId fs).2 p = true := by
  unfold processFont
  cases be.resolve fontId with
  | error e => exact hp
  | ok data => exact skipCached_processVariants base fontId be _ fs p H hp

/-- Helper: a whole run preserves cache validity. -/
theorem skipCached_run (base : String) (be : Backend) (fonts : List String)
    (fs : FS) (p : String) (H : servesLargeAssets be)
    (hp : skipCached fs p = true) :
    skipCached (run base be fonts fs).2 p = true := by
  induction fonts generalizing fs with
  | nil => exact hp
  | cons f fonts ih =>
    simp only [run]
    exact ih _ (skipCached_processFont base be f fs p H hp)

/-- Helper: settledness of a variant survives the inner loop. -/
theorem VariantSettled_processVariants (base fontId : String) (be : Backend)
    (vs : List Variant) (v : Variant) (fs : FS) (H : servesLargeAssets be)
    (h : VariantSettled base fontId be fs v) :
    VariantSettled base fontId be
      (processVariants base fontId be vs fs).2 v := by
  intro hmem hurl
  rcases h hmem hurl with h1 | h2
  · exact Or.inl (skipCached_processVariants base fontId be vs fs _ H h1)
  · exact Or.inr h2

/-- Helper: settledness of a variant survives a whole run. -/
theorem VariantSettled_run (base fontId : String) (be : Backend)
    (fonts : List String) (v : Variant) (fs : FS) (H : servesLargeAssets be)
    (h : VariantSettled base fontId be fs v) :
    VariantSettled base fontId be (run base be fonts fs).2 v := by
  intro hmem hurl
  rcases h hmem hurl with h1 | h2
  · exact Or.inl (skipCached_run base be fonts fs _ H h1)
  · exact Or.inr h2

/-- Helper: settledness of a font survives a whole run. -/
theorem FontSettled_run (base : String) (be : Backend) (fontId : String)
    (fonts : List String) (fs : FS) (H : servesLargeAssets be)
    (h : FontSettled base be fontId fs) :
    FontSettled base be fontId (run base be fonts fs).2 := by
  intro data hdata v hv
  exact VariantSettled_run base fontId be fonts v fs H (h data hdata v hv)

/-- Helper: after its own step, a variant is settled. -/
theorem processVariant_settles (base fontId : String) (be : Backend)
    (v : Variant) (fs : FS) (H : servesLargeAssets be) :
    VariantSettled base fontId be
      (processVariant base fontId be v fs).2 v := by
  intro hmem hurl
  by_cases hskip : skipCached fs
      (pathJoin base (filenameOf fontId (weightOf (v.id.getD "")))) = true
  · left
    have hst : (processVariant base fontId be v fs).2 = fs := by
      unfold processVariant
      simp [hmem, hurl, hskip]
    rw [hst]
    exact hskip
  · cases hf : be.fetch (v.woff2.getD "") with
    | ok b =>
      left
      have hst : (processVariant base fontId be v fs).2 =
          fsWrite fs
            (pathJoin base (filenameOf fontId (weightOf (v.id.getD "")))) b := by
        unfold processVariant
        simp [hmem, hurl, hskip, hf]
      rw [hst]
      have hb := H _ b hf
      simp [skipCached, fsWrite, hb]
    | error e => exact Or.inr ⟨e, rfl⟩

/-- Helper: after the inner loop, every variant of the list is settled. -/
theorem processVariants_settles (base fontId : String) (be : Backend)
    (vs : List Variant) (fs : FS) (H : servesLargeAssets be) :
    ∀ v ∈ vs, VariantSettled base fontId be
      (processVariants base fontId be vs fs).2 v := by
  induction vs generalizing fs with
  | nil => intro v hv; cases hv
  | cons w ws ih =>
    intro v hv
    simp only [processVariants]
    rcases List.mem_cons.mp hv with rfl | hv
    · exact VariantSettled_processVariants base fontId be ws v _ H
        (processVariant_settles base fontId be v fs H)
    · exact ih _ v hv

/-- Helper: after its own step, a font is settled. -/
theorem processFont_settles (base : String) (be : Backend) (fontId : String)
    (fs : FS) (H : servesLargeAssets be) :
    FontSettled base be fontId (processFont base be fontId fs).2 := by
  intro data hdata v hv
  have hst : processFont base be fontId fs =
      processVariants base fontId be (data.variants.getD []) fs := by
    unfold processFont
    rw [hdata]
  rw [hst]
  exact processVariants_settles base fontId be _ fs H v hv

/-- Helper: after a run, every font of the list is settled. -/
theorem run_settles (base : String) (be : Backend) (fonts : List String)
    (fs : FS) (H : servesLargeAssets be) :
    Settled base be fonts (run base be fonts fs).2 := by
  induction fonts generalizing fs with
  | nil => intro f hf; cases hf
  | cons f fonts ih =>
    intro g hg
    simp only [run]
    rcases List.mem_cons.mp hg with rfl | hg
    · exact FontSettled_run base be g fonts _ H
        (processFont_settles base be g fs H)
    · exact ih _ g hg

/-- Helper: the download count of a concatenated report. -/
theorem countDownloads_append (a b : List Entry) :
    countDownloads (a ++ b) = countDownloads a + countDownloads b := by
  simp [countDownloads, List.filter_append]

/-- Helper: a settled variant's step performs no download and no write. -/
theorem processVariant_settled_run (base fontId : String) (be : Backend)
    (v : Variant) (fs : FS) (h : VariantSettled base fontId be fs v) :
    (processVariant base fontId be v fs).2 = fs ∧
    countDownloads (processVariant base fontId be v fs).1 = 0 := by
  unfold processVariant
  by_cases hmem : v.id.getD "" ∈ supportedIds
  · by_cases hurl : v.woff2.getD "" = ""
    · simp [hmem, hurl, countDownloads]
    · by_cases hskip : skipCached fs
          (pathJoin base (filenameOf fontId (weightOf (v.id.getD "")))) = true
      · simp [hmem, hurl, hskip, countDownloads, Entry.isDownload]
      · rcases h hmem hurl with h1 | ⟨e, hf⟩
        · exact absurd h1 hskip
        · simp [hmem, hurl, hskip, hf, countDownloads, Entry.isDownload]
  · simp [hmem, countDownloads]

/-- Helper: a settled variant list's loop performs no download, no write. -/
theorem processVariants_settled_run (base fontId : String) (be : Backend)
    (vs : List Variant) (fs : FS)
    (h : ∀ v ∈ vs, VariantSettled base fontId be fs v) :
    (processVariants base fontId be vs fs).2 = fs ∧
    countDownloads (processVariants base fontId be vs fs).1 = 0 := by
  induction vs with
  | nil => simp [processVariants, countDownloads]
  | cons v vs ih =>
    have h1 := processVariant_settled_run base fontId be v fs
      (h v (List.mem_cons_self v vs))
    have h2 := ih (fun w hw => h w (List.mem_cons_of_mem v hw))
    constructor
    · simp only [processVariants]
      rw [h1.1]
      exact h2.1
    · simp only [processVariants]
      rw [h1.1, countDownloads_append, h1.2, h2.2]

/-- Helper: a settled font's step performs no download and no write. -/
theorem processFont_settled_run (base : String) (be : Backend)
    (fontId : String) (fs : FS) (h : FontSettled base be fontId fs) :
    (processFont base be fontId fs).2 = fs ∧
    countDownloads (processFont base be fontId fs).1 = 0 := by
  unfold processFont
  cases hr : be.resolve fontId with
  | error e => simp [countDownloads, Entry.isDownload]
  | ok data => exact processVariants_settled_run base fontId be _ fs (h data hr)

/-- Helper: a run over a settled state performs no download, no write. -/
theorem run_settled_run (base : String) (be : Backend) (fonts : List String)
    (fs : FS) (h : Settled base be fonts fs) :
    (run base be fonts fs).2 = fs ∧
    countDownloads (run base be fonts fs).1 = 0 := by
  induction fonts with
  | nil => simp [run, countDownloads]
  | cons f fonts ih =>
    have h1 := processFont_settled_run base be f fs
      (h f (List.mem_cons_self f fonts))
    have h2 := ih (fun g hg => h g (List.mem_cons_of_mem f hg))
    constructor
    · simp only [run]
      rw [h1.1]
      exact h2.1
    · simp only [run]
      rw [h1.1, countDownloads_append, h1.2, h2.2]

/-- C1 counterexample: a cached file whose size is exactly the threshold
(1000 bytes) is re-fetched and overwritten — the script's test is
`os.path.getsize(out) > 1000`, strict — refuting the claim that a file at
the threshold is valid and skipped. -/
theorem C1_counterexample :
    (c1FS c1Path).map List.length = some 1000 ∧
    (processVariant "fonts" "demo" c1BE ⟨some "regular", some "u"⟩ c1FS).1 =
      [Entry.downloaded "demo" (filenameOf "demo" "400") 1001] ∧
    (processVariant "fonts" "demo" c1BE ⟨some "regular", some "u"⟩ c1FS).2
      c1Path = some (zeros 1001) := by
  refine ⟨?_, ?_, ?_⟩ <;>
    simp [processVariant, c1FS, c1BE, c1Path, skipCached, fsWrite,
      weightOf, supportedIds, zeros_length]

/-- C1 amended: the asset is re-downloaded iff the target file is absent
or its size is at most the 1000-byte threshold (so a file of size exactly
the threshold is re-fetched, not skipped); a file strictly above the
threshold is never re-fetched or overwritten: the variant step records it
as present and leaves the filesystem unchanged. -/
theorem C1_amended :
    (∀ (fs : FS) (p : String), skipCached fs p = false ↔
        fs p = none ∨ ∃ b, fs p = some b ∧ b.length ≤ 1000) ∧
    (∀ (base fontId vid url : String) (be : Backend) (fs : FS),
      vid ∈ supportedIds → url ≠ "" →
      skipCached fs (pathJoin base (filenameOf fontId (weightOf vid))) = true →
      processVariant base fontId be ⟨some vid, some url⟩ fs =
        ([Entry.present fontId (filenameOf fontId (weightOf vid))], fs)) := by
  constructor
  · intro fs p
    unfold skipCached
    cases h : fs p with
    | none => simp
    | some b => simp [Nat.not_lt]
  · intro base fontId vid url be fs hmem hurl hskip
    simp [processVariant, hmem, hurl, hskip]

/-- C1 amended, witnessed at a concrete input: a cached 5000-byte file is
recorded present and left untouched. -/
theorem C1_amended_witness :
    processVariant "fonts" "demo" c1BE ⟨some "regular", some "u"⟩
      (fun p => if p = c1Path then some (zeros 5000) else none) =
      ([Entry.present "demo" (filenameOf "demo" (weightOf "regular"))],
        fun p => if p = c1Path then some (zeros 5000) else none) :=
  C1_amended.2 "fonts" "demo" "regular" "u" c1BE
    (fun p => if p = c1Path then some (zeros 5000) else none)
    (by decide) (by decide)
    (by simp [skipCached, c1Path, weightOf, zeros_length])

/-- C2 counterexample: with a stable backend whose (successfully served)
asset body is only 500 bytes, the first run downloads it, and — because
500 bytes is under the 1000-byte validity threshold — the second run
downloads it again: the claim's "zero downloads on the second run" fails
for this stable backend. -/
theorem C2_counterexample :
    countDownloads (run "fonts" c2SmallBE ["demo"] fsEmpty).1 = 1 ∧
    countDownloads (run "fonts" c2SmallBE ["demo"]
        ((run "fonts" c2SmallBE ["demo"] fsEmpty).2)).1 = 1 := by
  constructor <;>
    simp [run, processFont, processVariants, processVariant, c2SmallBE,
      skipCached, fsWrite, fsEmpty, supportedIds, weightOf, zeros_length,
      countDownloads, Entry.isDownload, List.filter]

/-- C2 amended: the pipeline is idempotent provided every asset body the
backend serves exceeds the 1000-byte validity threshold (true of genuine
font files): running the pipeline a second time against the cache state
left by the first run performs zero downloads and leaves the cache
unchanged, for every font list, start state and stable backend. -/
theorem C2_amended (base : String) (be : Backend) (fonts : List String)
    (fs : FS) (H : servesLargeAssets be) :
    countDownloads (run base be fonts ((run base be fonts fs).2)).1 = 0 ∧
    (run base be fonts ((run base be fonts fs).2)).2 =
      (run base be fonts fs).2 := by
  have hs := run_settles base be fonts fs H
  have hr := run_settled_run base be fonts _ hs
  exact ⟨hr.2, hr.1⟩

/-- C2 amended, witnessed at a concrete stable backend serving a
1001-byte asset for one font. -/
theorem C2_amended_witness :
    countDownloads (run "fonts" c2BE ["demo"]
        ((run "fonts" c2BE ["demo"] fsEmpty).2)).1 = 0 ∧
    (run "fonts" c2BE ["demo"] ((run "fonts" c2BE ["demo"] fsEmpty).2)).2 =
      (run "fonts" c2BE ["demo"] fsEmpty).2 :=
  C2_amended "fonts" c2BE ["demo"] fsEmpty
    (by
      intro url b hb
      simp [c2BE] at hb
      subst hb
      simp [zeros_length])

/-- C4: a metadata failure (`ResolveError`) for one font records exactly
one failure entry for that font, leaves the filesystem unchanged, and the
remaining fonts of the batch are processed exactly as they would have been
without it. -/
theorem C4_resolve_error_isolated (base font e : String) (be : Backend)
    (rest : List String) (fs : FS) (h : be.resolve font = Except.error e) :
    run base be (font :: rest) fs =
      (Entry.resolveFail font e :: (run base be rest fs).1,
        (run base be rest fs).2) := by
  simp [run, processFont, h]

/-- C4 witness: with a backend whose metadata endpoint always fails, the
two-font batch `["alpha", "beta"]` records alpha's failure and still
processes beta. -/
theorem C4_resolve_error_isolated_witness :
    run "fonts" c7BE ["alpha", "beta"] fsEmpty =
      (Entry.resolveFail "alpha" "timed out" ::
        (run "fonts" c7BE ["beta"] fsEmpty).1,
        (run "fonts" c7BE ["beta"] fsEmpty).2) :=
  C4_resolve_error_isolated "fonts" "alpha" "timed out" c7BE ["beta"] fsEmpty rfl

/-- Helper: a dict element of the variants iteration never crashes: every
branch of lines 40-63 for it is caught or harmless. -/
theorem processVariantJ_dict_ok (base fontId : String) (be : BackendJ)
    (fields : List (String × JsonVal)) (fs : FS) :
    ∃ r, processVariantJ base fontId be (JsonVal.jdict fields) fs =
      Except.ok r := by
  simp only [processVariantJ]
  repeat' split
  all_goals exact ⟨_, rfl⟩

/-- Helper: an all-dict variants list never crashes the inner loop. -/
theorem processVariantsJ_dicts_ok (base fontId : String) (be : BackendJ)
    (items : List JsonVal) (fs : FS)
    (h : ∀ i ∈ items, i.isDict = true) :
    ∃ r, processVariantsJ base fontId be items fs = Except.ok r := by
  induction items generalizing fs with
  | nil => exact ⟨([], fs), rfl⟩
  | cons i is ih =>
    have hi := h i (List.mem_cons_self i is)
    cases i with
    | jdict fields =>
      obtain ⟨r, hr⟩ := processVariantJ_dict_ok base fontId be fields fs
      obtain ⟨r2, hr2⟩ := ih r.2 (fun j hj => h j (List.mem_cons_of_mem _ hj))
      refine ⟨(r.1 ++ r2.1, r2.2), ?_⟩
      simp only [processVariantsJ, hr]
      rw [hr2]
      rfl
    | jlist l => simp [JsonVal.isDict] at hi
    | jstr s => simp [JsonVal.isDict] at hi
    | jnum n => simp [JsonVal.isDict] at hi
    | jbool b => simp [JsonVal.isDict] at hi
    | jnull => simp [JsonVal.isDict] at hi

/-- Helper: a font whose successfully parsed metadata is well-shaped
never crashes: the caught-metadata-error branch and the well-shaped dict
branch both complete. -/
theorem processFontJ_ok (base : String) (be : BackendJ) (fontId : String)
    (fs : FS) (H : wellShapedBE be) :
    ∃ r, processFontJ base be fontId fs = Except.ok r := by
  cases hres : be.resolve fontId with
  | error e =>
    exact ⟨([Entry.resolveFail fontId e], fs), by simp [processFontJ, hres]⟩
  | ok d =>
    have hd := H fontId d hres
    cases d with
    | jdict fields =>
      cases hv : fields.lookup "variants" with
      | none =>
        exact ⟨([], fs), by simp [processFontJ, hres, hv, iterItems,
          processVariantsJ]⟩
      | some v =>
        cases v with
        | jlist items =>
          simp only [wellShapedData, hv, List.all_eq_true] at hd
          obtain ⟨r, hr⟩ := processVariantsJ_dicts_ok base fontId be items fs hd
          exact ⟨r, by simp [processFontJ, hres, hv, iterItems, hr]⟩
        | jdict f2 => simp [wellShapedData, hv] at hd
        | jstr s => simp [wellShapedData, hv] at hd
        | jnum n => simp [wellShapedData, hv] at hd
        | jbool b => simp [wellShapedData, hv] at hd
        | jnull => simp [wellShapedData, hv] at hd
    | jlist l => simp [wellShapedData] at hd
    | jstr s => simp [wellShapedData] at hd
    | jnum n => simp [wellShapedData] at hd
    | jbool b => simp [wellShapedData] at hd
    | jnull => simp [wellShapedData] at hd

/-- Helper: over well-shaped metadata the whole driver loop completes. -/
theorem runJ_completes (base : String) (be : BackendJ)
    (fonts : List String) (fs : FS) (H : wellShapedBE be) :
    ∃ r, runJ base be fonts fs = Except.ok r := by
  induction fonts generalizing fs with
  | nil => exact ⟨([], fs), rfl⟩
  | cons f fonts ih =>
    obtain ⟨r, hr⟩ := processFontJ_ok base be f fs H
    obtain ⟨r2, hr2⟩ := ih r.2
    refine ⟨(r.1 ++ r2.1, r2.2), ?_⟩
    simp only [runJ, hr]
    rw [hr2]
    rfl

/-- C5: any of the three per-item failure modes of step 7 — a connect
failure (DownloadError before the target is touched), a mid-body read
failure (DownloadError after `open(out, 'wb')` truncated the target,
leaving a 0-byte file), or a local write error (the written prefix left
on disk) — records exactly one failure entry for that (font, weight) and
does not prevent the sibling variants from being attempted: the rest of
the report is exactly the processing of the siblings, from a state that
differs from the previous one at most at the failed item's own target
path; the loop is not aborted (the outcome stays non-crashing whenever
the siblings' processing is). -/
theorem C5_download_error_isolated (base fontId vid url e : String)
    (be : BackendJ) (vs : List JsonVal) (fs : FS)
    (hvid : vid ∈ supportedIds) (hurl : url ≠ "")
    (hskip : skipCached fs (pathJoin base (filenameOf fontId (weightOf vid))) = false)
    (hfail : fetchFailsWith (be.fetch url) e) :
    ∃ fs2, (∀ p, p ≠ pathJoin base (filenameOf fontId (weightOf vid)) →
        fs2 p = fs p) ∧
      processVariantsJ base fontId be
          (JsonVal.jdict [("id", JsonVal.jstr vid),
            ("woff2", JsonVal.jstr url)] :: vs) fs =
        prependReport
          [Entry.downloadFail fontId (filenameOf fontId (weightOf vid)) e]
          (processVariantsJ base fontId be vs fs2) := by
  have hurlb : (url == "") = false := beq_eq_false_iff_ne.mpr hurl
  rcases hfail with hf | hf | ⟨w, hf⟩
  · refine ⟨fs, fun p hp => rfl, ?_⟩
    simp [processVariantsJ, processVariantJ, List.lookup, JsonVal.falsy,
      hvid, hurlb, hskip, hf]
  · refine ⟨fsWrite fs (pathJoin base (filenameOf fontId (weightOf vid))) [],
      fun p hp => by simp [fsWrite, hp], ?_⟩
    simp [processVariantsJ, processVariantJ, List.lookup, JsonVal.falsy,
      hvid, hurlb, hskip, hf]
  · refine ⟨fsWrite fs (pathJoin base (filenameOf fontId (weightOf vid))) w,
      fun p hp => by simp [fsWrite, hp], ?_⟩
    simp [processVariantsJ, processVariantJ, List.lookup, JsonVal.falsy,
      hvid, hurlb, hskip, hf]

/-- C5 witness: font gamma's 600 variant fails mid-body (read timeout,
leaving a 0-byte file) and its sibling 700 variant is still attempted. -/
theorem C5_download_error_isolated_witness :
    ∃ fs2, (∀ p, p ≠ pathJoin "fonts" (filenameOf "gamma" (weightOf "600")) →
        fs2 p = fsEmpty p) ∧
      processVariantsJ "fonts" "gamma" c5BE
          (JsonVal.jdict [("id", JsonVal.jstr "600"),
            ("woff2", JsonVal.jstr "u6")] ::
            [JsonVal.jdict [("id", JsonVal.jstr "700"),
              ("woff2", JsonVal.jstr "u7")]]) fsEmpty =
        prependReport
          [Entry.downloadFail "gamma" (filenameOf "gamma" (weightOf "600"))
            "read timed out"]
          (processVariantsJ "fonts" "gamma" c5BE
            [JsonVal.jdict [("id", JsonVal.jstr "700"),
              ("woff2", JsonVal.jstr "u7")]] fs2) :=
  C5_download_error_isolated "fonts" "gamma" "600" "u6" "read timed out"
    c5BE
    [JsonVal.jdict [("id", JsonVal.jstr "700"),
      ("woff2", JsonVal.jstr "u7")]]
    fsEmpty (by decide) (by decide) rfl (Or.inr (Or.inl rfl))

/-- C6 counterexample: a metadata endpoint answering HTTP 200 with the
valid JSON body `null` crashes the run uncaught at
`data.get('variants', [])` (line 39, outside the try): the run dies
during the first font with an empty report, the second font is never
processed and no summary is printed — refuting "the run reaches
completion and nothing propagates out of the driver loop uncaught". -/
theorem C6_counterexample :
    runJ "fonts" c6BE ["alpha", "beta"] fsEmpty =
      Except.error ([], fsEmpty) := rfl

/-- C6 amended: no caught error class is fatal, and the run reaches
completion and reports a summary, provided every metadata body that
parses is well-shaped — a JSON object whose `variants` member, when
present, is an array of objects.  Outside that shape (a non-object body,
a non-iterable `variants`, a non-object element) the crash at lines
39-41 propagates uncaught, as the counterexample shows. -/
theorem C6_amended (base : String) (be : BackendJ) (fonts : List String)
    (fs : FS) (H : wellShapedBE be) :
    ∃ es fs2, runJ base be fonts fs = Except.ok (es, fs2) := by
  obtain ⟨⟨es, fs2⟩, h⟩ := runJ_completes base be fonts fs H
  exact ⟨es, fs2, h⟩

/-- C6 amended, witnessed at a concrete well-shaped backend. -/
theorem C6_amended_witness :
    ∃ es fs2, runJ "fonts" c6GoodBE ["demo"] fsEmpty =
      Except.ok (es, fs2) :=
  C6_amended "fonts" c6GoodBE ["demo"] fsEmpty
    (by
      intro f d h
      simp [c6GoodBE] at h
      subst h
      rfl)

/-- C7 counterexample: a run in which an item failed (a caught metadata
timeout) still completes the loop, and — the script calling no
`sys.exit` — the interpreter exits with status 0, refuting "non-zero iff
at least one item failed". -/
theorem C7_counterexample :
    anyFailed (runReport "fonts" c7BEJ ["demo"] fsEmpty) = true ∧
    scriptExitCodeJ "fonts" c7BEJ ["demo"] fsEmpty = 0 := by
  constructor <;> rfl

/-- C7 amended: the exit status does not reflect item failures: it is 0
whenever the driver loop completes — even if items failed, their
failures appearing only in the per-item output — and non-zero (1, an
uncaught traceback) exactly when the run crashes on a metadata document
whose shape breaks lines 39-41, independent of item failures. -/
theorem C7_amended (base : String) (be : BackendJ) (fonts : List String)
    (fs : FS) :
    (∀ es fs2, runJ base be fonts fs = Except.ok (es, fs2) →
      scriptExitCodeJ base be fonts fs = 0) ∧
    (∀ es fs2, runJ base be fonts fs = Except.error (es, fs2) →
      scriptExitCodeJ base be fonts fs = 1) := by
  constructor <;> intro es fs2 h <;> simp [scriptExitCodeJ, h]

/-- C7 amended, witnessed: the failing-but-completing run of the
counterexample backend exits 0. -/
theorem C7_amended_witness :
    scriptExitCodeJ "fonts" c7BEJ ["demo"] fsEmpty = 0 :=
  (C7_amended "fonts" c7BEJ ["demo"] fsEmpty).1
    [Entry.resolveFail "demo" "timed out"] fsEmpty rfl

/-- C8 counterexample: the script writes in place (`open(out, 'wb')`
truncates, then the body is written); a write of a 5000-byte asset
interrupted after 2000 bytes leaves an incomplete 2000-byte file that
passes the cache validity check — refuting the claimed atomicity. -/
theorem C8_counterexample :
    2000 < 5000 ∧
    skipCached
      (storeInterrupted fsEmpty "fonts/demo-400.woff2" (zeros 5000) 2000)
      "fonts/demo-400.woff2" = true := by
  refine ⟨by norm_num, ?_⟩
  simp [storeInterrupted, fsWrite, skipCached, zeros_take, zeros_length]

/-- C8 amended: `store` is an in-place truncating write, not atomic: an
interruption after `k` bytes leaves exactly the written prefix on disk,
and that incomplete file passes the cache validity check precisely when
the prefix written so far exceeds the 1000-byte threshold. -/
theorem C8_amended :
    ∀ (fs : FS) (p : String) (b : Bytes) (k : Nat),
      skipCached (storeInterrupted fs p b k) p = true ↔
        1000 < (b.take k).length := by
  intro fs p b k
  simp [storeInterrupted, fsWrite, skipCached]

/-- C9: when the metadata fetch for a font fails, processing that font
performs no filesystem write at all: the state returned is the input
state, for every path. -/
theorem C9_no_write_on_resolve_error (base font e : String) (be : Backend)
    (fs : FS) (h : be.resolve font = Except.error e) :
    processFont base be font fs = ([Entry.resolveFail font e], fs) := by
  simp [processFont, h]

/-- C9 witness at a concrete input. -/
theorem C9_no_write_on_resolve_error_witness :
    processFont "fonts" c7BE "demo" fsEmpty =
      ([Entry.resolveFail "demo" "timed out"], fsEmpty) :=
  C9_no_write_on_resolve_error "fonts" "demo" "timed out" c7BE fsEmpty rfl

/-- C10: a metadata response that parses but has no `variants` field is
processed as zero variants — no entry, no download, no failure, no write —
and is indistinguishable in report and state from a font whose variants
were all filtered out by the supported-id check. -/
theorem C10_missing_variants (base font : String) (fs : FS)
    (be₁ be₂ : Backend) (d₁ d₂ : FontData)
    (h₁ : be₁.resolve font = Except.ok d₁) (hv : d₁.variants = none)
    (h₂ : be₂.resolve font = Except.ok d₂)
    (hf : ∀ v ∈ d₂.variants.getD [], v.id.getD "" ∉ supportedIds) :
    processFont base be₁ font fs = ([], fs) ∧
    processFont base be₂ font fs = processFont base be₁ font fs := by
  have e₁ : processFont base be₁ font fs = ([], fs) := by
    simp [processFont, h₁, hv, processVariants]
  refine ⟨e₁, ?_⟩
  rw [e₁]
  simp [processFont, h₂,
    processVariants_all_filtered base font be₂ _ fs hf]

/-- C10 witness: a backend answering `{}` (no `variants` field) next to a
backend answering only an italic variant, at a concrete font. -/
theorem C10_missing_variants_witness :
    processFont "fonts"
        ⟨fun _ => Except.ok ⟨none⟩, fun _ => Except.error "unused"⟩
        "demo" fsEmpty = ([], fsEmpty) ∧
      processFont "fonts"
          ⟨fun _ => Except.ok ⟨some [⟨some "italic", some "u"⟩]⟩,
            fun _ => Except.error "unused"⟩
          "demo" fsEmpty =
        processFont "fonts"
          ⟨fun _ => Except.ok ⟨none⟩, fun _ => Except.error "unused"⟩
          "demo" fsEmpty :=
  C10_missing_variants "fonts" "demo" fsEmpty
    ⟨fun _ => Except.ok ⟨none⟩, fun _ => Except.error "unused"⟩
    ⟨fun _ => Except.ok ⟨some [⟨some "italic", some "u"⟩]⟩,
      fun _ => Except.error "unused"⟩
    ⟨none⟩ ⟨some [⟨some "italic", some "u"⟩]⟩ rfl rfl rfl
    (by intro v hv; simp at hv; subst hv; decide)

end FontSync
